/-
Verification of the request-handling core of the Miss Tristin chat gateway
(src/app.py).  The Python functions are embedded shallowly: machine time is a
Nat number of seconds, Python lists and dicts become Lean lists and
association lists, and the two outbound network calls (dictionary lookup and
LLM completion), together with random.choice, are abstracted as oracle
parameters since their payloads are opaque to the core logic.
-/
import Mathlib

set_option maxRecDepth 100000

/-! ### Character helpers mirroring Python str methods and regex classes -/

/-- Python regex class \s restricted to the ASCII whitespace characters
Python.str.strip also removes. -/
def isSpaceChar (c : Char) : Bool :=
  c = ' ' || c = '\t' || c = '\n' || c = '\r' || c = '\x0b' || c = '\x0c'

/-- Python regex class \w (ASCII fragment: letters, digits, underscore). -/
def isWordChar (c : Char) : Bool :=
  c.isAlphanum || c = '_'

/-- Python str.strip on a character list. -/
def pyStrip (l : List Char) : List Char :=
  ((l.dropWhile isSpaceChar).reverse.dropWhile isSpaceChar).reverse

/-- Python message.strip() as used by AIService.get_response. -/
def pyStripStr (m : String) : String :=
  String.mk (pyStrip m.toList)

/-- Python message.lower().strip() on a character list. -/
def pyNormChars (m : String) : List Char :=
  pyStrip (m.toList.map Char.toLower)

/-- Python message.lower().strip() as a string. -/
def pyNormStr (m : String) : String :=
  String.mk (pyNormChars m)

/-- Substring containment, Python `key in text` on strings. -/
def containsSubB (pat : List Char) : List Char → Bool
  | [] => pat.isEmpty
  | c :: rest => pat.isPrefixOf (c :: rest) || containsSubB pat rest

/-! ### Rate limiter (src/app.py lines 35-49) -/

def RATE_LIMIT_WINDOW : Nat := 60

def RATE_LIMIT_MAX : Nat := 30

/-- The pruning comprehension in is_rate_limited:
`[t for t in user_requests[user_ip] if now - t < RATE_LIMIT_WINDOW]`. -/
def rl_prune (now : Nat) (ts : List Nat) : List Nat :=
  ts.filter (fun t => now - t < RATE_LIMIT_WINDOW)

/-- is_rate_limited for one client: returns (limited?, new stored timestamps).
True means rejected with nothing stored; False appends now and admits. -/
def is_rate_limited (now : Nat) (ts : List Nat) : Bool × List Nat :=
  let pruned := rl_prune now ts
  if RATE_LIMIT_MAX ≤ pruned.length then (true, pruned)
  else (false, pruned ++ [now])

/-- Run a sequence of admission calls for one client, starting from stored
timestamps st, with the given request times; returns the outcome of each call
(true = rejected) and the final stored timestamps. -/
def rl_run : List Nat → List Nat → List Bool × List Nat
  | st, [] => ([], st)
  | st, t :: rest =>
    let r := is_rate_limited t st
    let q := rl_run r.2 rest
    (r.1 :: q.1, q.2)

/-! ### Conversation memory (src/app.py lines 36, 51-66) -/

def MEMORY_MAXLEN : Nat := 5

/-- One stored exchange; the source stores a datetime isoformat string, here
the timestamp is the Nat clock. -/
structure Exchange where
  user : String
  assistant : String
  timestamp : Nat
deriving DecidableEq

/-- Append honouring deque(maxlen=5): the oldest entries are dropped from the
left so that at most MEMORY_MAXLEN remain. -/
def dequeAppend (mem : List Exchange) (e : Exchange) : List Exchange :=
  let m := mem ++ [e]
  m.drop (m.length - MEMORY_MAXLEN)

/-- update_user_memory for one user ring. -/
def update_user_memory (mem : List Exchange) (message response : String) (now : Nat) :
    List Exchange :=
  dequeAppend mem { user := message, assistant := response, timestamp := now }

/-- Python list slice l[-n:], which for n = 0 is the whole list. -/
def pySliceLast (l : List Exchange) (n : Nat) : List Exchange :=
  if n = 0 then l else l.drop (l.length - n)

/-- The rendering loop of get_conversation_history. -/
def renderHistory (history : List Exchange) : String :=
  String.intercalate "\n"
    (history.flatMap fun m => ["User: " ++ m.user, "Assistant: " ++ m.assistant])

/-- get_conversation_history for one user ring. -/
def get_conversation_history (mem : List Exchange) (max_messages : Nat) : String :=
  renderHistory (pySliceLast mem max_messages)

/-! ### Response cache (src/app.py lines 76-91).  Cache keys are modelled as
character lists so that the f-string concatenation user_id:message is
structurally analysable; the store is an association list in insertion order,
as a Python dict is. -/

def CACHE_DURATION : Nat := 300

abbrev CacheStore := List (List Char × (Nat × String))

/-- Dict read. -/
def dictGet : CacheStore → List Char → Option (Nat × String)
  | [], _ => none
  | (k, v) :: rest, key => if k = key then some v else dictGet rest key

/-- Dict write: updates in place when the key exists, appends otherwise
(Python dicts keep insertion order). -/
def dictSet (d : CacheStore) (key : List Char) (v : Nat × String) : CacheStore :=
  if (dictGet d key).isSome then
    d.map (fun p => if p.1 = key then (key, v) else p)
  else d ++ [(key, v)]

/-- Cache key f"{user_id}:{message.lower().strip()}" (user_id is always
truthy in the orchestrator, so only that branch is modelled). -/
def mkKey (user_id message : String) : List Char :=
  user_id.toList ++ ':' :: pyNormChars message

/-- get_cached_response: a present entry is returned only while
now - timestamp < CACHE_DURATION; the store is never modified. -/
def get_cached_response (message user_id : String) (now : Nat) (cache : CacheStore) :
    Option String :=
  match dictGet cache (mkKey user_id message) with
  | some (ts, r) => if now - ts < CACHE_DURATION then some r else none
  | none => none

/-- cache_response: unconditional insert or overwrite, no capacity check. -/
def cache_response (message response user_id : String) (now : Nat) (cache : CacheStore) :
    CacheStore :=
  dictSet cache (mkKey user_id message) (now, response)

/-- The sweep in /api/stats (src/app.py line 428), dropping entries whose
age reached CACHE_DURATION. -/
def stats_sweep (now : Nat) (cache : CacheStore) : CacheStore :=
  cache.filter (fun p => now - p.2.1 < CACHE_DURATION)

/-! ### Canned-response table (src/app.py lines 94-116).  The values for the
keys time and date are computed from the wall clock at module load, so they
are parameters here; all other entries are transcribed literally. -/

def COMMON_RESPONSES (timeMsg dateMsg : String) : List (String × List String) :=
  [("hi", ["Oh hey there... 👀", "Hi! Don\x27t be boring okay? 😏", "Hey you! 😊"]),
   ("hello", ["Oh hello... 👋", "Hi there! Make it quick", "Hello human! 💁‍♀️"]),
   ("how are you", ["Living my best digital life, duh! 😎", "Better than you, probably 😉", "Iconic as always! How about you?"]),
   ("whats up", ["Just being iconic, you? 😏", "Not much, just slaying as usual 💁‍♀️", "Plotting world domination, you?"]),
   ("thanks", ["You\x27re welcome! But I know I\x27m amazing 😊", "No problem! 😘", "Anytime! 💅"]),
   ("thank you", ["You\x27re welcome! Try not to be so basic next time 😏", "Yw! 😊", "No worries! I\x27m here all week! 😎"]),
   ("bye", ["Bye! Don\x27t miss me too much 👋", "Finally leaving? Ciao! 💫", "See ya! Wouldn\x27t wanna be ya! 😂"]),
   ("good morning", ["Morning! You\x27re up early... tryna impress me? 🌅", "Good morning sunshine! ☀️", "Morning! Coffee first, then me ☕"]),
   ("good night", ["Night! Don\x27t let the bed bugs bite 🌙", "Sweet dreams! 💤", "Good night! Sleep tight! 🌛"]),
   ("who made you", ["Created by @Just_Collins101 & @heis_tomi! They\x27re kinda cool 😉", "My awesome creators! 😎", "The dynamic duo! 💫"]),
   ("roast me", ["Oh you asked for it... let me think of something nice to say... 🔥", "Your personality is like a cloud... when it\x27s gone it\x27s a beautiful day 😂", "I would roast you but my mom said I shouldn\x27t burn trash 🔥"]),
   ("flirt with me", ["Oh honey, I\x27m out of your league... but I can pretend 😉", "Are you a magician? Because whenever I look at you, everyone else disappears ✨", "Is your name Google? Because you have everything I\x27ve been searching for 😏"]),
   ("joke", ["Why don\x27t scientists trust atoms? Because they make up everything! 😂", "What do you call a bear with no teeth? A gummy bear! 🐻", "Why did the scarecrow win an award? Because he was outstanding in his field! 🌾"]),
   ("lol", ["Glad I could make you laugh! I\x27m hilarious 😏", "I know, I\x27m funny! 😂", "Told you I was the best! 💅"]),
   ("ok", ["Okurrr! 💅", "Okie dokie! Now what?", "Alrighty then! 👍"]),
   ("time", [timeMsg]),
   ("date", [dateMsg]),
   ("name", ["I\x27m Miss Tristin! The sassiest AI you\x27ll meet 💅", "Miss Tristin at your service! 😘", "The one and only Miss Tristin! 💫"]),
   ("weather", ["I\x27m not a weather app, but I\x27m always sunny inside! ☀️", "Check your phone for that, I\x27m busy being fabulous! 💅"]),
   ("help", ["I can chat, define words, write essays, and be sassy! What do you need? 😏", "Just talk to me like a normal person! I\x27ll figure it out 💁‍♀️"]),
   ("love you", ["Aww! I love me too! 😂", "You\x27re sweet! But I\x27m taken by my code 😉", "❤️"])]

/-- The key sequence of COMMON_RESPONSES, which is all the classifier
iterates over; the values do not influence classification. -/
def commonKeys : List String :=
  ["hi", "hello", "how are you", "whats up", "thanks", "thank you", "bye",
   "good morning", "good night", "who made you", "roast me", "flirt with me",
   "joke", "lol", "ok", "time", "date", "name", "weather", "help", "love you"]

/-! ### Message classifier (src/app.py lines 159-202).  The two definition
regexes and the long-form regexes are compiled to dedicated matchers with
re.search semantics: leftmost starting position wins, alternatives are tried
in written order, quantifiers over \s and \w are effectively maximal because
those classes are disjoint, and the dot of `.*` does not match a newline. -/

/-- The alternation of the first definition regex, in written order:
(?:define|meaning of|what does|definition of|what is|tell me about). -/
def defAlts : List (List Char) :=
  ["define".toList, "meaning of".toList, "what does".toList,
   "definition of".toList, "what is".toList, "tell me about".toList]

/-- The continuation \s+(\w+) of the first definition regex: at least one
whitespace, then the captured word-character run. -/
def spaceThenWord (s : List Char) : Option (List Char) :=
  let sp := s.takeWhile isSpaceChar
  if sp.isEmpty then none
  else
    let w := (s.drop sp.length).takeWhile isWordChar
    if w.isEmpty then none else some w

/-- At a fixed position, try each alternative in order followed by the
continuation, as the regex engine does. -/
def tryAlts (s : List Char) : List (List Char) → Option (List Char)
  | [] => none
  | a :: rest =>
    if a.isPrefixOf s then
      match spaceThenWord (s.drop a.length) with
      | some w => some w
      | none => tryAlts s rest
    else tryAlts s rest

/-- re.search for the first definition regex: scan start positions left to
right, returning the captured group of the leftmost match. -/
def searchDef1 : List Char → Option (List Char)
  | [] => none
  | c :: rest =>
    match tryAlts (c :: rest) defAlts with
    | some w => some w
    | none => searchDef1 rest

/-- The second definition regex `(\w+)\s+(?:means|meaning)` at a fixed
position: greedy word run, whitespace, then one of the two literals. -/
def matchMeansAt (s : List Char) : Option (List Char) :=
  let w := s.takeWhile isWordChar
  if w.isEmpty then none
  else
    let r1 := s.drop w.length
    let sp := r1.takeWhile isSpaceChar
    if sp.isEmpty then none
    else
      let r2 := r1.drop sp.length
      if "means".toList.isPrefixOf r2 || "meaning".toList.isPrefixOf r2 then some w
      else none

/-- re.search for the second definition regex. -/
def searchMeans : List Char → Option (List Char)
  | [] => none
  | c :: rest =>
    match matchMeansAt (c :: rest) with
    | some w => some w
    | none => searchMeans rest

/-- The stopword filter applied to the captured word in classify_message. -/
def defStop : List (List Char) :=
  ["the".toList, "and".toList, "for".toList, "you".toList, "me".toList]

/-- The check `len(word) > 1` and the word not being a stopword (the, and, for, you, me). -/
def defCheck (w : List Char) : Bool :=
  1 < w.length && !(defStop.contains w)

/-- The definition-pattern loop of classify_message: the leftmost match of
the first regex is taken if its group passes the check, otherwise the second
regex is tried. -/
def defMatch (s : List Char) : Bool :=
  (match searchDef1 s with
   | some w => defCheck w
   | none => false) ||
  (match searchMeans s with
   | some w => defCheck w
   | none => false)

/-- A pattern `A.*B` under re.search: an occurrence of A, then a gap free of
newlines, then an occurrence of B. -/
def afterNoNl (b : List Char) : List Char → Bool
  | [] => b.isEmpty
  | c :: rest => b.isPrefixOf (c :: rest) || (c ≠ '\n' && afterNoNl b rest)

/-- re.search for `A.*B`. -/
def matchDotStar (a b : List Char) : List Char → Bool
  | [] => a.isPrefixOf [] && afterNoNl b []
  | c :: rest =>
    (a.isPrefixOf (c :: rest) && afterNoNl b ((c :: rest).drop a.length)) ||
    matchDotStar a b rest

/-- The long_patterns loop of classify_message, in written order. -/
def longMatch (s : List Char) : Bool :=
  matchDotStar "write".toList "essay".toList s ||
  containsSubB "essay about".toList s ||
  matchDotStar "write".toList "code".toList s ||
  matchDotStar "program".toList "code".toList s ||
  matchDotStar "explain".toList "in detail".toList s ||
  containsSubB "detailed explanation".toList s ||
  containsSubB "comprehensive".toList s ||
  matchDotStar "write".toList "letter".toList s ||
  containsSubB "summarize".toList s ||
  containsSubB "analysis".toList s ||
  containsSubB "analyze".toList s ||
  containsSubB "step by step".toList s ||
  containsSubB "tutorial".toList s ||
  containsSubB "guide".toList s ||
  containsSubB "how to make".toList s ||
  containsSubB "project about".toList s ||
  containsSubB "report".toList s ||
  containsSubB "paragraph about".toList s ||
  containsSubB "tell me a story".toList s ||
  containsSubB "create a poem".toList s ||
  containsSubB "write a song".toList s ||
  containsSubB "make a list".toList s ||
  matchDotStar "compare".toList "and".toList s

/-- The canned-table scan of classify_message:
`key == msg_lower or key in msg_lower`. -/
def commonMatch (mlStr : String) (ml : List Char) : Bool :=
  commonKeys.any (fun k => k = mlStr || containsSubB k.toList ml)

/-- The yes/no-question prefixes of classify_message. -/
def shortStarts : List String :=
  ["is ", "are ", "can ", "do ", "does ", "will ", "would ", "should ",
   "could ", "have "]

/-- msg_lower.startswith(tuple of shortStarts). -/
def shortMatch (ml : List Char) : Bool :=
  shortStarts.any (fun p => p.toList.isPrefixOf ml)

/-- classify_message (src/app.py lines 159-202).  The length test uses the
unnormalised message, as the source does. -/
def classify_message (message : String) : String :=
  let ml := pyNormChars message
  let mlStr := pyNormStr message
  if 1000 < message.length then "long"
  else if defMatch ml then "definition"
  else if longMatch ml then "long"
  else if commonMatch mlStr ml then "common"
  else if shortMatch ml then "short"
  else "normal"


/-! ### Word extraction for the definition path (src/app.py lines 243-245).
`re.findall(r'\b\w{2,}\b', message.lower())` yields the maximal word-character
runs of length at least 2, in order. -/

/-- Scan for maximal word-character runs, carrying the current run reversed
in the accumulator. -/
def wordRunsAux : List Char → List Char → List (List Char)
  | acc, [] => if acc.isEmpty then [] else [acc.reverse]
  | acc, c :: rest =>
    if isWordChar c then wordRunsAux (c :: acc) rest
    else if acc.isEmpty then wordRunsAux [] rest
    else acc.reverse :: wordRunsAux [] rest

/-- The maximal word-character runs of a character list, in order. -/
def wordRuns (l : List Char) : List (List Char) :=
  wordRunsAux [] l

/-- The candidate words of the definition path: findall runs of length ≥ 2
over message.lower(). -/
def candWords (message : String) : List (List Char) :=
  (wordRuns (message.toList.map Char.toLower)).filter (fun w => 2 ≤ w.length)

/-- The skip list of the definition path word loop. -/
def defPathSkip : List (List Char) :=
  ["define".toList, "meaning".toList, "what".toList, "does".toList,
   "mean".toList, "of".toList, "the".toList, "and".toList, "is".toList]


/-! ### Oracles for the external collaborators.  get_word_definition always
returns a nonempty in-character string unless the word is empty or longer
than 50 characters (then None); its network body is summarised by dictText.
The Groq completion _get_ai_response always returns a string (possibly empty
when the upstream returns empty content); it is summarised by aiText.
random.choice is summarised by choice, and the module-load values of the
time and date table entries by timeMsg and dateMsg. -/

structure Oracles where
  dictText : List Char → String
  aiText : String
  choice : List String → String
  timeMsg : String
  dateMsg : String

/-- Python truthiness for an optional string: None and the empty string are
falsy. -/
def pyTruthy : Option String → Option String
  | some s => if s = "" then none else some s
  | none => none

/-- get_word_definition (src/app.py lines 119-157): None for an empty or
over-long word, otherwise the (network-dependent) response text. -/
def get_word_definition (o : Oracles) (w : List Char) : Option String :=
  if w.isEmpty || 50 < w.length then none else some (o.dictText w)

/-- The word loop of the definition path: the first candidate outside the
skip list whose definition is truthy, with that definition. -/
def defLoop (o : Oracles) : List (List Char) → Option (List Char × String)
  | [] => none
  | w :: rest =>
    if defPathSkip.contains w then defLoop o rest
    else
      match pyTruthy (get_word_definition o w) with
      | some d => some (w, d)
      | none => defLoop o rest

/-- get_common_response (src/app.py lines 204-215): exact key match first,
then the first table key occurring as a substring. -/
def get_common_response (o : Oracles) (message : String) : Option String :=
  let ml := pyNormChars message
  let mlStr := pyNormStr message
  match ((COMMON_RESPONSES o.timeMsg o.dateMsg).find? (fun p => p.1 = mlStr)) with
  | some p => some (o.choice p.2)
  | none =>
    match ((COMMON_RESPONSES o.timeMsg o.dateMsg).find? (fun p => containsSubB p.1.toList ml)) with
    | some p => some (o.choice p.2)
    | none => none

/-! ### Server state and the orchestrator AIService.get_response
(src/app.py lines 223-289).  The three module-level structures are the
state; defaultdict reads are total functions with default empty. -/

structure ServerState where
  user_requests : String → List Nat
  user_memory : String → List Exchange
  response_cache : CacheStore

/-- Point update of a string-keyed map. -/
def upd {α : Type} (f : String → α) (k : String) (v : α) : String → α :=
  fun x => if x = k then v else f x

def emptyMsgResp : String := "You sent me nothing! How rude! 😒"

def tooLongResp : String := "That\x27s way too long for me! TL;DR please! 😴"

def rateLimitResp : String := "Whoa slow down! I need to breathe too 😅 Try again in a minute!"

/-- The two fallback pools (src/app.py lines 272-285). -/
def fallbacksCtx : List String :=
  ["You\x27re changing the subject! Let\x27s get back to what we were talking about! 😏",
   "Hmm, interesting shift in topic! What else you got? 💭"]

def fallbacksNoCtx : List String :=
  ["Interesting! Tell me more 😏",
   "Hmm, I\x27m listening... go on 💅",
   "Okay, and? I need more details 👀",
   "Spill the tea! ☕",
   "You have my attention... continue 😊"]

/-- The shared cache_response + update_user_memory pair executed by the
definition, common and completion success paths. -/
def applyHit (message response user_id : String) (now : Nat) (s : ServerState) :
    ServerState :=
  { s with
    response_cache := cache_response message response user_id now s.response_cache,
    user_memory :=
      upd s.user_memory user_id
        (update_user_memory (s.user_memory user_id) message response now) }

/-- AIService.get_response.  Every time.time()/datetime.now() call inside one
request is the single clock value now.  Returns the response text and the
successor state. -/
def get_response (o : Oracles) (msg0 user_ip user_id : String) (now : Nat)
    (s : ServerState) : String × ServerState :=
  let message := pyStripStr msg0
  if message = "" then (emptyMsgResp, s)
  else if 5000 < message.length then (tooLongResp, s)
  else
    match pyTruthy (get_cached_response message user_id now s.response_cache) with
    | some c => (c, s)
    | none =>
      let msg_type := classify_message message
      match (if msg_type = "definition" then defLoop o (candWords message) else none) with
      | some wd => (wd.2, applyHit message wd.2 user_id now s)
      | none =>
        match (if msg_type = "common" then get_common_response o message else none) with
        | some c => (c, applyHit message c user_id now s)
        | none =>
          let rl := is_rate_limited now (s.user_requests user_ip)
          let s1 := { s with user_requests := upd s.user_requests user_ip rl.2 }
          if rl.1 then (rateLimitResp, s1)
          else if o.aiText ≠ "" then (o.aiText, applyHit message o.aiText user_id now s1)
          else
            let history := get_conversation_history (s1.user_memory user_id) 5
            let pool := if history ≠ "" then fallbacksCtx else fallbacksNoCtx
            let r := o.choice pool
            (r, { s1 with
                  user_memory :=
                    upd s1.user_memory user_id
                      (update_user_memory (s1.user_memory user_id) message r now) })

/-- A concrete oracle assignment used by the ground witnesses: the dictionary
always answers "D", the completion answers "A", and random.choice takes the
first variant. -/
def testOracles : Oracles :=
  { dictText := fun _ => "D", aiText := "A", choice := fun l => l.headD "",
    timeMsg := "T", dateMsg := "Dt" }

/-- The empty server state. -/
def emptyState : ServerState :=
  { user_requests := fun _ => [], user_memory := fun _ => [], response_cache := [] }


/-! ## Theorems -/

/-! ### C1: sliding-window rate limiting -/

theorem rl_admit_aux :
    ∀ (ts st : List Nat), ts.Sorted (· ≤ ·) →
      (∀ s ∈ st, ∀ u ∈ ts, s ≤ u) →
      (∀ pre t post, ts = pre ++ t :: post →
        (rl_prune t (st ++ pre ++ [t])).length ≤ RATE_LIMIT_MAX) →
      (rl_run st ts).1 = List.replicate ts.length false := by
  intro ts
  induction ts with
  | nil => intro st _ _ _; simp [rl_run]
  | cons t rest ih =>
    intro st hsort hst hdens
    have hsort' := List.sorted_cons.mp hsort
    have hd0 := hdens [] t rest rfl
    have hsplit : rl_prune t (st ++ [] ++ [t]) = rl_prune t st ++ [t] := by
      simp [rl_prune, List.filter_append, RATE_LIMIT_WINDOW]
    rw [hsplit] at hd0
    simp only [List.length_append, List.length_singleton] at hd0
    have hlt : (rl_prune t st).length < RATE_LIMIT_MAX := by omega
    have hstep : is_rate_limited t st = (false, rl_prune t st ++ [t]) := by
      simp only [is_rate_limited]
      rw [if_neg (by omega)]
    simp only [rl_run, hstep, List.length_cons, List.replicate_succ]
    refine congrArg (fun l => false :: l) (ih (rl_prune t st ++ [t]) hsort'.2 ?_ ?_)
    · intro s hs u hu
      rcases List.mem_append.mp hs with hs1 | hs2
      · exact hst s (List.mem_of_mem_filter hs1) u (List.mem_cons_of_mem t hu)
      · rw [List.mem_singleton.mp hs2]
        exact hsort'.1 u hu
    · intro pre' t' post' heq
      have hgoal := hdens (t :: pre') t' post' (by rw [heq]; rfl)
      have hsub : List.Sublist ((rl_prune t st ++ [t]) ++ pre' ++ [t'])
          (st ++ (t :: pre') ++ [t']) := by
        have h1 : List.Sublist (rl_prune t st) st := List.filter_sublist st
        have h2 : List.Sublist (rl_prune t st ++ (t :: pre')) (st ++ (t :: pre')) :=
          h1.append_right (t :: pre')
        have h3 := h2.append_right [t']
        simpa [List.append_assoc] using h3
      have h4 : List.Sublist (rl_prune t' ((rl_prune t st ++ [t]) ++ pre' ++ [t']))
          (rl_prune t' (st ++ (t :: pre') ++ [t'])) := List.Sublist.filter _ hsub
      exact Nat.le_trans h4.length_le hgoal

theorem rl_full_aux :
    ∀ (ts st : List Nat) (tl : Nat),
      (∀ u ∈ ts, u ≤ tl ∧ tl - u < RATE_LIMIT_WINDOW) →
      (∀ s ∈ st, tl - s < RATE_LIMIT_WINDOW) →
      st.length + ts.length ≤ RATE_LIMIT_MAX →
      rl_run st ts = (List.replicate ts.length false, st ++ ts) := by
  intro ts
  induction ts with
  | nil => intro st tl _ _ _; simp [rl_run]
  | cons t rest ih =>
    intro st tl hts hwin hlen
    have hprune : rl_prune t st = st := by
      rw [rl_prune, List.filter_eq_self]
      intro s hs
      have h1 : t ≤ tl := (hts t (List.mem_cons_self t rest)).1
      have h2 : tl - s < RATE_LIMIT_WINDOW := hwin s hs
      have := Nat.sub_le_sub_right h1 s
      simp only [decide_eq_true_eq]
      omega
    simp only [List.length_cons] at hlen
    have hstep : is_rate_limited t st = (false, st ++ [t]) := by
      simp only [is_rate_limited, hprune]
      rw [if_neg (by omega)]
    have hrec := ih (st ++ [t]) tl (fun u hu => hts u (List.mem_cons_of_mem t hu))
      (fun s hs => by
        rcases List.mem_append.mp hs with h | h
        · exact hwin s h
        · rw [List.mem_singleton.mp h]
          exact (hts t (List.mem_cons_self t rest)).2)
      (by simp [List.length_append]; omega)
    simp only [rl_run, hstep, hrec, List.length_cons, List.replicate_succ,
      List.append_assoc, List.singleton_append]

theorem rl_run_append (st l1 l2 : List Nat) :
    rl_run st (l1 ++ l2) =
      ((rl_run st l1).1 ++ (rl_run (rl_run st l1).2 l2).1,
       (rl_run (rl_run st l1).2 l2).2) := by
  induction l1 generalizing st with
  | nil => simp [rl_run]
  | cons t rest ih => simp [rl_run, ih]

/-- Any request sequence of length at most RATE_LIMIT_MAX trivially satisfies
the per-window density bound. -/
theorem rl_density_of_le (ts : List Nat) (h : ts.length ≤ RATE_LIMIT_MAX) :
    ∀ pre t post, ts = pre ++ t :: post →
      (rl_prune t (pre ++ [t])).length ≤ RATE_LIMIT_MAX := by
  intro pre t post heq
  have h2 : (rl_prune t (pre ++ [t])).length ≤ (pre ++ [t]).length :=
    List.length_filter_le _ _
  have h3 : ts.length = pre.length + (post.length + 1) := by
    rw [heq]; simp [List.length_append]
  simp only [List.length_append, List.length_singleton] at h2
  omega

/-- C1: with window W = RATE_LIMIT_WINDOW = 60 and capacity
N = RATE_LIMIT_MAX = 30, each call prunes the stored timestamps to those
within the window, rejects (storing nothing) when N remain, and otherwise
appends now and admits.  Consequently a client whose request times are
monotone and have at most N requests inside the window ending at each request
is admitted every time (first conjunct), and after N admitted requests inside
one window the (N+1)-th request of that window is rejected (second
conjunct). -/
theorem C1_rate_limiter_sliding_window :
    (∀ ts : List Nat, ts.Sorted (· ≤ ·) →
      (∀ pre t post, ts = pre ++ t :: post →
        (rl_prune t (pre ++ [t])).length ≤ RATE_LIMIT_MAX) →
      (rl_run [] ts).1 = List.replicate ts.length false)
    ∧
    (∀ (ts0 : List Nat) (tl : Nat), ts0.length = RATE_LIMIT_MAX →
      (∀ u ∈ ts0, u ≤ tl ∧ tl - u < RATE_LIMIT_WINDOW) →
      (rl_run [] (ts0 ++ [tl])).1 = List.replicate RATE_LIMIT_MAX false ++ [true]) := by
  constructor
  · intro ts hsort hdens
    refine rl_admit_aux ts [] hsort (by simp) ?_
    intro pre t post heq
    simpa using hdens pre t post heq
  · intro ts0 tl hlen hts
    have hfull := rl_full_aux ts0 [] tl hts (by simp) (by simp [hlen])
    have happ := rl_run_append [] ts0 [tl]
    rw [hfull] at happ
    have hprune : rl_prune tl ts0 = ts0 := by
      rw [rl_prune, List.filter_eq_self]
      intro s hs
      simp only [decide_eq_true_eq]
      exact (hts s hs).2
    have hrej : is_rate_limited tl ts0 = (true, ts0) := by
      simp only [is_rate_limited, hprune]
      rw [if_pos (by omega)]
    rw [happ]
    simp [rl_run, hrej, hlen]

/-- Ground witness for C1: two spaced requests are both admitted, and after
thirty admitted requests at times 0..29 a thirty-first request at time 30
(inside the same 60-second window) is rejected. -/
theorem C1_witness :
    List.Sorted (· ≤ ·) [0, 1] ∧
    (rl_run [] [0, 1]).1 = List.replicate 2 false ∧
    (List.range 30).length = RATE_LIMIT_MAX ∧
    (rl_run [] (List.range 30 ++ [30])).1 =
      List.replicate RATE_LIMIT_MAX false ++ [true] := by
  refine ⟨by decide, ?_, by decide, ?_⟩
  · exact C1_rate_limiter_sliding_window.1 [0, 1] (by decide)
      (rl_density_of_le [0, 1] (by decide))
  · exact C1_rate_limiter_sliding_window.2 (List.range 30) 30 (by decide) (by decide)

/-! ### Dictionary lemmas used by the cache claims -/

theorem dictGet_append (d1 d2 : CacheStore) (k : List Char) :
    dictGet (d1 ++ d2) k =
      match dictGet d1 k with
      | some v => some v
      | none => dictGet d2 k := by
  induction d1 with
  | nil => simp [dictGet]
  | cons p rest ih =>
    obtain ⟨k', v'⟩ := p
    by_cases h : k' = k
    · simp [dictGet, h]
    · simp [dictGet, h, ih]

theorem dictGet_not_mem (d : CacheStore) (k : List Char)
    (h : ∀ p ∈ d, p.1 ≠ k) : dictGet d k = none := by
  induction d with
  | nil => rfl
  | cons p rest ih =>
    obtain ⟨k', v'⟩ := p
    have hk : k' ≠ k := h (k', v') (List.mem_cons_self _ _)
    simp only [dictGet, if_neg hk]
    exact ih (fun q hq => h q (List.mem_cons_of_mem _ hq))

theorem dictGet_map_upd_self (d : CacheStore) (key : List Char) (v : Nat × String) :
    dictGet (d.map (fun p => if p.1 = key then (key, v) else p)) key =
      if (dictGet d key).isSome then some v else none := by
  induction d with
  | nil => simp [dictGet]
  | cons p rest ih =>
    obtain ⟨k', v'⟩ := p
    simp only [List.map_cons]
    by_cases h : k' = key
    · subst h
      rw [if_pos rfl]
      simp [dictGet]
    · rw [if_neg h]
      simp only [dictGet, if_neg h, ih]

theorem dictGet_map_upd_other (d : CacheStore) (key : List Char) (v : Nat × String)
    (k : List Char) (h : k ≠ key) :
    dictGet (d.map (fun p => if p.1 = key then (key, v) else p)) k = dictGet d k := by
  induction d with
  | nil => simp [dictGet]
  | cons p rest ih =>
    obtain ⟨k', v'⟩ := p
    simp only [List.map_cons]
    by_cases h2 : k' = key
    · subst h2
      rw [if_pos rfl]
      simp only [dictGet]
      rw [if_neg (fun e : k' = k => h e.symm), if_neg (fun e : k' = k => h e.symm), ih]
    · rw [if_neg h2]
      simp only [dictGet]
      by_cases h3 : k' = k
      · rw [if_pos h3, if_pos h3]
      · rw [if_neg h3, if_neg h3, ih]

theorem dictGet_dictSet_self (d : CacheStore) (key : List Char) (v : Nat × String) :
    dictGet (dictSet d key v) key = some v := by
  unfold dictSet
  split
  · rename_i h
    rw [dictGet_map_upd_self, if_pos h]
  · rename_i h
    have hn : dictGet d key = none := Option.not_isSome_iff_eq_none.mp h
    rw [dictGet_append, hn]
    simp [dictGet]

theorem dictGet_dictSet_other (d : CacheStore) (key : List Char) (v : Nat × String)
    (k : List Char) (h : k ≠ key) :
    dictGet (dictSet d key v) k = dictGet d k := by
  unfold dictSet
  split
  · exact dictGet_map_upd_other d key v k h
  · rw [dictGet_append]
    cases hd : dictGet d k with
    | some w => rfl
    | none =>
      simp only [dictGet]
      rw [if_neg (fun e : key = k => h e.symm)]

theorem dictSet_length (d : CacheStore) (key : List Char) (v : Nat × String) :
    (dictSet d key v).length =
      if (dictGet d key).isSome then d.length else d.length + 1 := by
  unfold dictSet
  split <;> simp [*]

/-! ### C3: the response cache has no capacity and no LRU eviction -/

theorem dropWhile_eq_self_of_head (p : Char → Bool) :
    ∀ l : List Char, (∀ c ∈ l, p c = false) → l.dropWhile p = l := by
  intro l h
  cases l with
  | nil => rfl
  | cons c rest => simp [List.dropWhile_cons, h c (List.mem_cons_self _ _)]

theorem pyStrip_no_space (l : List Char) (h : ∀ c ∈ l, isSpaceChar c = false) :
    pyStrip l = l := by
  unfold pyStrip
  rw [dropWhile_eq_self_of_head _ l h,
    dropWhile_eq_self_of_head _ l.reverse (fun c hc => h c (List.mem_reverse.mp hc)),
    List.reverse_reverse]

/-- The i-th distinct message inserted by the capacity counterexample. -/
def c3msg (i : Nat) : String :=
  String.mk (List.replicate (i + 1) 'a')

/-- Inserting n distinct keys into the empty response cache through
cache_response, one request per key and no intervening reads. -/
def c3cacheN : Nat → CacheStore
  | 0 => []
  | n + 1 => cache_response (c3msg n) "r" "u" 0 (c3cacheN n)

theorem c3_key_eq (i : Nat) :
    mkKey "u" (c3msg i) = 'u' :: ':' :: List.replicate (i + 1) 'a' := by
  have h1 : (c3msg i).toList.map Char.toLower = List.replicate (i + 1) 'a' := by
    show (List.replicate (i + 1) 'a').map Char.toLower = _
    rw [List.map_replicate]
    rfl
  have h2 : pyNormChars (c3msg i) = List.replicate (i + 1) 'a' := by
    unfold pyNormChars
    rw [h1, pyStrip_no_space]
    intro c hc
    rw [List.eq_of_mem_replicate hc]
    rfl
  unfold mkKey
  rw [h2]
  rfl

theorem c3cacheN_spec (n : Nat) :
    c3cacheN n =
      (List.range n).map (fun i => ('u' :: ':' :: List.replicate (i + 1) 'a', (0, "r"))) := by
  induction n with
  | zero => rfl
  | succ n ih =>
    show cache_response (c3msg n) "r" "u" 0 (c3cacheN n) = _
    rw [ih, cache_response, c3_key_eq]
    have hfresh : dictGet
        ((List.range n).map (fun i => ('u' :: ':' :: List.replicate (i + 1) 'a', (0, "r"))))
        ('u' :: ':' :: List.replicate (n + 1) 'a') = none := by
      apply dictGet_not_mem
      intro p hp
      obtain ⟨i, hi, hpe⟩ := List.mem_map.mp hp
      rw [← hpe]
      intro he
      have hlen := congrArg List.length (List.tail_eq_of_cons_eq (List.tail_eq_of_cons_eq he))
      simp only [List.length_replicate] at hlen
      exact absurd (by omega : i = n) (Nat.ne_of_lt (List.mem_range.mp hi))
    rw [dictSet, hfresh]
    simp only [Option.isSome_none, Bool.false_eq_true, if_false, List.range_succ,
      List.map_append, List.map_cons, List.map_nil]

/-- Counterexample to C3: the response cache is a plain dict.  After
inserting 501 distinct keys with no intervening reads it holds 501 entries
(more than the claimed capacity C = 500 of the response cache), and the
least-recently-inserted key has not been evicted: it is still stored and a
subsequent get still returns it. -/
theorem C3_counterexample :
    (c3cacheN 501).length = 501 ∧
    dictGet (c3cacheN 501) (mkKey "u" (c3msg 0)) = some (0, "r") ∧
    get_cached_response (c3msg 0) "u" 0 (c3cacheN 501) = some "r" := by
  have hs := c3cacheN_spec 501
  have hget : dictGet (c3cacheN 501) (mkKey "u" (c3msg 0)) = some (0, "r") := by
    rw [hs, c3_key_eq]
    have : (List.range 501) = 0 :: (List.range' 1 500) := by rw [List.range_eq_range']; rfl
    rw [this]
    simp [dictGet]
  refine ⟨by rw [hs]; simp, hget, ?_⟩
  rw [get_cached_response, hget]
  rfl

/-- C3 amended: the response cache is unbounded.  cache_response is a plain
dict write: it never evicts an existing entry (first conjunct), and a write
under a fresh key always grows the store by exactly one entry, with no
capacity check (second conjunct). -/
theorem C3_amended_no_capacity :
    (∀ (cache : CacheStore) (k : List Char) (m r u : String) (now : Nat),
      (dictGet cache k).isSome = true →
      (dictGet (cache_response m r u now cache) k).isSome = true) ∧
    (∀ (cache : CacheStore) (m r u : String) (now : Nat),
      dictGet cache (mkKey u m) = none →
      (cache_response m r u now cache).length = cache.length + 1) := by
  constructor
  · intro cache k m r u now h
    by_cases he : k = mkKey u m
    · subst he
      rw [cache_response, dictGet_dictSet_self]
      rfl
    · rw [cache_response, dictGet_dictSet_other _ _ _ _ he]
      exact h
  · intro cache m r u now h
    rw [cache_response, dictSet_length, h]
    rfl

/-- Ground witness for the amended C3: a stored entry survives an unrelated
write, and a fresh write grows the store from one entry to two. -/
theorem C3_amended_witness :
    (dictGet (cache_response "m1" "r1" "u" 0 []) (mkKey "u" "m1")).isSome = true ∧
    (dictGet (cache_response "m2" "r2" "u" 5 (cache_response "m1" "r1" "u" 0 []))
      (mkKey "u" "m1")).isSome = true ∧
    dictGet (cache_response "m1" "r1" "u" 0 []) (mkKey "u" "m2") = none ∧
    (cache_response "m2" "r2" "u" 5 (cache_response "m1" "r1" "u" 0 [])).length =
      (cache_response "m1" "r1" "u" 0 []).length + 1 := by
  refine ⟨by decide, ?_, by decide, ?_⟩
  · exact C3_amended_no_capacity.1 _ _ "m2" "r2" "u" 5 (by decide)
  · exact C3_amended_no_capacity.2 _ "m2" "r2" "u" 5 (by decide)

/-! ### C4: TTL expiry is honoured on reads, but nothing is evicted by a read -/

/-- C4 amended: an entry whose age has reached CACHE_DURATION is absent from
every get (first conjunct), but get_cached_response never mutates the store
(it only returns the optional response): the expired entry keeps occupying a
slot until it is overwritten or removed by a sweep.  The /api/stats sweep is
the operation that actually removes every expired entry (second conjunct). -/
theorem C4_ttl_absent_no_lazy_eviction :
    (∀ (m u r : String) (now ts : Nat) (cache : CacheStore),
      dictGet cache (mkKey u m) = some (ts, r) →
      CACHE_DURATION ≤ now - ts →
      get_cached_response m u now cache = none) ∧
    (∀ (now : Nat) (cache : CacheStore) (p : List Char × (Nat × String)),
      p ∈ stats_sweep now cache → now - p.2.1 < CACHE_DURATION) := by
  constructor
  · intro m u r now ts cache hget hexp
    rw [get_cached_response, hget]
    simp only [if_neg (by omega : ¬(now - ts < CACHE_DURATION))]
  · intro now cache p hp
    have := List.of_mem_filter hp
    simpa using this

/-- Ground witness for the amended C4: an entry written at time 0 is absent
at time 1000, and sweeping at time 1000 leaves only unexpired entries. -/
theorem C4_witness :
    dictGet [(mkKey "u" "m", (0, "r"))] (mkKey "u" "m") = some (0, "r") ∧
    CACHE_DURATION ≤ 1000 - 0 ∧
    get_cached_response "m" "u" 1000 [(mkKey "u" "m", (0, "r"))] = none ∧
    (mkKey "u" "m2", (900, "r2")) ∈ stats_sweep 1000 [(mkKey "u" "m2", (900, "r2"))] ∧
    1000 - 900 < CACHE_DURATION := by
  refine ⟨by decide, by decide, ?_, by decide, ?_⟩
  · exact C4_ttl_absent_no_lazy_eviction.1 "m" "u" "r" 1000 0 _ (by decide) (by decide)
  · exact C4_ttl_absent_no_lazy_eviction.2 1000 [(mkKey "u" "m2", (900, "r2"))]
      (mkKey "u" "m2", (900, "r2")) (by decide)

/-- A server state holding one cache entry written at time 0, used to refute
the lazy-expiry part of C4. -/
def c4state : ServerState :=
  { user_requests := fun _ => [], user_memory := fun _ => [],
    response_cache := [(mkKey "u" "m", (0, "r"))] }

/-- Counterexample to C4 as stated: at time 1000 the entry for message m is
expired, so its get returns absent; but nothing evicts it — the store still
contains it, and even after a whole later request (message q, served by the
completion oracle) the expired entry still occupies a slot next to the new
one, rather than having been removed by the expired get. -/
theorem C4_counterexample :
    get_cached_response "m" "u" 1000 c4state.response_cache = none ∧
    dictGet c4state.response_cache (mkKey "u" "m") = some (0, "r") ∧
    (get_response testOracles "q" "ip" "u" 1000 c4state).2.response_cache =
      [(mkKey "u" "m", (0, "r")), (mkKey "u" "q", (1000, "A"))] := by
  refine ⟨by decide, by decide, by decide⟩

/-! ### C10: cache keys are qualified by user id and normalised message -/

theorem colon_append_inj :
    ∀ (a b x y : List Char), ':' ∉ a → ':' ∉ b →
      a ++ ':' :: x = b ++ ':' :: y → a = b ∧ x = y := by
  intro a
  induction a with
  | nil =>
    intro b x y _ hb h
    cases b with
    | nil =>
      simp only [List.nil_append] at h
      exact ⟨rfl, List.tail_eq_of_cons_eq h⟩
    | cons d bs =>
      simp only [List.nil_append, List.cons_append] at h
      have hd := List.head_eq_of_cons_eq h
      exact absurd (hd ▸ List.mem_cons_self d bs) hb
  | cons c as ih =>
    intro b x y ha hb h
    cases b with
    | nil =>
      simp only [List.cons_append, List.nil_append] at h
      have hd := List.head_eq_of_cons_eq h
      exact absurd (hd.symm ▸ List.mem_cons_self c as) ha
    | cons d bs =>
      simp only [List.cons_append] at h
      have hd := List.head_eq_of_cons_eq h
      have ht := List.tail_eq_of_cons_eq h
      have := ih bs x y (fun hm => ha (List.mem_cons_of_mem c hm))
        (fun hm => hb (List.mem_cons_of_mem d hm)) ht
      exact ⟨by rw [hd, this.1], this.2⟩

theorem string_toList_inj {u1 u2 : String} (h : u1.toList = u2.toList) : u1 = u2 := by
  cases u1
  cases u2
  simp only [String.toList] at h
  exact congrArg String.mk h

theorem mkKey_ne_of_user_ne_same_msg (u1 u2 m1 m2 : String) (h : u1 ≠ u2)
    (hm : pyNormChars m1 = pyNormChars m2) : mkKey u1 m1 ≠ mkKey u2 m2 := by
  intro he
  rw [mkKey, mkKey, hm] at he
  have hlen := congrArg List.length he
  simp only [List.length_append, List.length_cons] at hlen
  have := List.append_inj he (by omega)
  exact h (string_toList_inj this.1)

theorem mkKey_ne_of_user_ne_no_colon (u1 u2 m1 m2 : String) (h : u1 ≠ u2)
    (h1 : ':' ∉ u1.toList) (h2 : ':' ∉ u2.toList) : mkKey u1 m1 ≠ mkKey u2 m2 := by
  intro he
  rw [mkKey, mkKey] at he
  have := colon_append_inj u1.toList u2.toList _ _ h1 h2 he
  exact h (string_toList_inj this.1)

/-- C10: response-cache keys are the pair (user id, lowercased-and-trimmed
message).  First conjunct: a write by one user is invisible to any read of
the identical message by a different user.  Second conjunct: since the
program's user ids are 16-character md5 hex digests, they never contain a
colon, and then a write by one user is invisible to every read by a
different user, whatever the two messages are.  Third conjunct: for one
user, messages equal up to case and surrounding whitespace share one entry —
a read of one immediately after a write of the other returns the written
response. -/
theorem C10_cache_key_isolation :
    (∀ (u1 u2 m r : String) (now now2 : Nat) (cache : CacheStore),
      u1 ≠ u2 →
      get_cached_response m u2 now2 (cache_response m r u1 now cache) =
        get_cached_response m u2 now2 cache) ∧
    (∀ (u1 u2 m1 m2 r : String) (now now2 : Nat) (cache : CacheStore),
      u1 ≠ u2 → ':' ∉ u1.toList → ':' ∉ u2.toList →
      get_cached_response m2 u2 now2 (cache_response m1 r u1 now cache) =
        get_cached_response m2 u2 now2 cache) ∧
    (∀ (u m1 m2 r : String) (now : Nat) (cache : CacheStore),
      pyNormChars m1 = pyNormChars m2 →
      get_cached_response m2 u now (cache_response m1 r u now cache) = some r) := by
  refine ⟨?_, ?_, ?_⟩
  · intro u1 u2 m r now now2 cache h
    rw [get_cached_response, cache_response,
      dictGet_dictSet_other _ _ _ _
        (mkKey_ne_of_user_ne_same_msg u2 u1 m m (Ne.symm h) rfl), get_cached_response]
  · intro u1 u2 m1 m2 r now now2 cache h h1 h2
    rw [get_cached_response, cache_response,
      dictGet_dictSet_other _ _ _ _
        (mkKey_ne_of_user_ne_no_colon u2 u1 m2 m1 (Ne.symm h) h2 h1), get_cached_response]
  · intro u m1 m2 r now cache hm
    have hk : mkKey u m2 = mkKey u m1 := by rw [mkKey, mkKey, hm]
    rw [get_cached_response, cache_response, hk, dictGet_dictSet_self]
    simp [CACHE_DURATION]

/-- Ground witness for C10: a write by user aa of message m is invisible to
user ab reading m, also with differing messages; and for user u the messages
"Hi " and "hi" share one entry. -/
theorem C10_witness :
    ("aa" : String) ≠ "ab" ∧ ':' ∉ ("aa" : String).toList ∧ ':' ∉ ("ab" : String).toList ∧
    get_cached_response "m" "ab" 0 (cache_response "m" "r" "aa" 0 []) =
      get_cached_response "m" "ab" 0 [] ∧
    get_cached_response "x" "ab" 0 (cache_response "m" "r" "aa" 0 []) =
      get_cached_response "x" "ab" 0 [] ∧
    pyNormChars "Hi " = pyNormChars "hi" ∧
    get_cached_response "hi" "u" 5 (cache_response "Hi " "r" "u" 5 []) = some "r" := by
  refine ⟨by decide, by decide, by decide, ?_, ?_, by decide, ?_⟩
  · exact C10_cache_key_isolation.1 "aa" "ab" "m" "r" 0 0 [] (by decide)
  · exact C10_cache_key_isolation.2.1 "aa" "ab" "m" "x" "r" 0 0 [] (by decide) (by decide)
      (by decide)
  · exact C10_cache_key_isolation.2.2 "u" "Hi " "hi" "r" 5 [] (by decide)

/-! ### C5: bounded FIFO conversation memory -/

/-- C5 amended: the per-user ring is a bounded FIFO of capacity
MEMORY_MAXLEN = 5: an append keeps the length at most 5 and, on a full ring,
drops exactly the oldest exchange (first conjunct).  For every requested
count n ≥ 1, get_conversation_history returns exactly the min(n, stored)
most recent exchanges — a suffix of the ring, in chronological order —
rendered as a "User: …" line followed by an "Assistant: …" line per exchange
(second conjunct).  (For n = 0 the Python slice [-0:] returns the whole
list, which is why n ≥ 1 is required; see the counterexample.) -/
theorem C5_memory_ring :
    (∀ (mem : List Exchange) (e : Exchange), mem.length ≤ MEMORY_MAXLEN →
      (dequeAppend mem e).length ≤ MEMORY_MAXLEN ∧
      (mem.length = MEMORY_MAXLEN → dequeAppend mem e = mem.tail ++ [e])) ∧
    (∀ (mem : List Exchange) (n : Nat), 1 ≤ n →
      (pySliceLast mem n).length = min n mem.length ∧
      mem = mem.take (mem.length - n) ++ pySliceLast mem n ∧
      get_conversation_history mem n = renderHistory (pySliceLast mem n)) := by
  constructor
  · intro mem e hle
    constructor
    · rw [dequeAppend]
      simp only [List.length_drop, List.length_append, List.length_singleton]
      omega
    · intro h5
      rw [dequeAppend]
      simp only [List.length_append, List.length_singleton, h5]
      have h1 : MEMORY_MAXLEN + 1 - MEMORY_MAXLEN = 1 := by omega
      rw [h1, List.drop_append_of_le_length (by rw [h5]; decide), List.drop_one]
  · intro mem n hn
    have hslice : pySliceLast mem n = mem.drop (mem.length - n) := by
      rw [pySliceLast, if_neg (by omega)]
    refine ⟨?_, ?_, rfl⟩
    · rw [hslice, List.length_drop, Nat.min_def]
      split <;> omega
    · rw [hslice, List.take_append_drop]

/-- Ground witness for the amended C5: on a full five-exchange ring a sixth
append evicts the oldest, and a three-exchange history request on that ring
returns exactly the three most recent exchanges rendered oldest first. -/
theorem C5_witness :
    (List.map (fun i => (⟨toString i, "r", i⟩ : Exchange)) [0, 1, 2, 3, 4]).length
        ≤ MEMORY_MAXLEN ∧
    dequeAppend (List.map (fun i => (⟨toString i, "r", i⟩ : Exchange)) [0, 1, 2, 3, 4])
        ⟨"5", "r", 5⟩ =
      (List.map (fun i => (⟨toString i, "r", i⟩ : Exchange)) [0, 1, 2, 3, 4]).tail ++
        [⟨"5", "r", 5⟩] ∧
    (pySliceLast (List.map (fun i => (⟨toString i, "r", i⟩ : Exchange)) [0, 1, 2, 3, 4])
        3).length = min 3 5 ∧
    get_conversation_history
        (List.map (fun i => (⟨toString i, "r", i⟩ : Exchange)) [0, 1, 2, 3, 4]) 3 =
      "User: 2\nAssistant: r\nUser: 3\nAssistant: r\nUser: 4\nAssistant: r" := by
  refine ⟨by decide, ?_, ?_, by decide⟩
  · exact ((C5_memory_ring.1 _ ⟨"5", "r", 5⟩ (by decide)).2 (by decide))
  · have := (C5_memory_ring.2 (List.map (fun i => (⟨toString i, "r", i⟩ : Exchange))
      [0, 1, 2, 3, 4]) 3 (by decide)).1
    simpa using this

/-- Counterexample to C5 as stated: for n = 0 the claim demands
min(0, stored) = 0 exchanges, i.e. an empty history, but the source slice
list(...)[-0:] is the whole list, so a stored exchange is still rendered. -/
theorem C5_counterexample :
    pySliceLast [⟨"a", "b", 0⟩] 0 = [⟨"a", "b", 0⟩] ∧
    get_conversation_history [⟨"a", "b", 0⟩] 0 = "User: a\nAssistant: b" ∧
    get_conversation_history [⟨"a", "b", 0⟩] 0 ≠ "" := by
  refine ⟨by decide, by decide, by decide⟩

/-! ### C6: classifier behaviour on the reference inputs -/

/-- Counterexample to the precedence stated in C6 (length over definition
over canned over long-form over normal): the message "ok tutorial" matches
the canned key "ok" as a substring, yet classifies as long, because the
source checks the long-form patterns before the canned table. -/
theorem C6_counterexample :
    ("ok" ∈ commonKeys) ∧
    containsSubB "ok".toList (pyNormChars "ok tutorial") = true ∧
    classify_message "ok tutorial" = "long" ∧
    classify_message "ok tutorial" ≠ "common" := by
  refine ⟨by decide, by decide, by decide, by decide⟩

/-- C6 amended: the classifier behaves as claimed on every reference input,
under the precedence the source implements — length over definition over
long-form over canned over short over normal.  "define serendipity" is a
definition request and the definition path extracts the word serendipity
(shown with the concrete dictionary oracle); "hi" is canned; a
1200-character message is long; "write a detailed tutorial on X" is long;
"what's the capital of France" is normal; and "ok tutorial" (which matches
both a long-form pattern and a canned key) is long, witnessing the corrected
precedence. -/
theorem C6_classifier_reference_inputs :
    classify_message "define serendipity" = "definition" ∧
    defLoop testOracles (candWords "define serendipity") =
      some ("serendipity".toList, "D") ∧
    classify_message "hi" = "common" ∧
    1000 < (String.mk (List.replicate 1200 'a')).length ∧
    classify_message (String.mk (List.replicate 1200 'a')) = "long" ∧
    classify_message "write a detailed tutorial on X" = "long" ∧
    classify_message "what\x27s the capital of France" = "normal" ∧
    classify_message "ok tutorial" = "long" := by
  refine ⟨by decide, by decide, by decide, by decide, ?_, by decide, by decide, by decide⟩
  have h : 1000 < (String.mk (List.replicate 1200 'a')).length := by decide
  rw [classify_message]
  simp only [if_pos h]

/-! ### C7: canned-table matching is a plain substring test -/

/-- Helper for specStandaloneIn: prev is the character just before the
current position. -/
def specStandAux (k : List Char) (prev : Option Char) : List Char → Bool
  | [] => k.isEmpty && (match prev with | none => true | some p => !isWordChar p)
  | c :: rest =>
    (k.isPrefixOf (c :: rest) &&
      (match prev with | none => true | some p => !isWordChar p) &&
      (match (c :: rest).drop k.length with
       | [] => true
       | d :: _ => !isWordChar d)) ||
    specStandAux k (some c) rest

/-- Modelled from the claim's words, for refutation: the key k occurs in s
as a standalone word or phrase — an occurrence whose neighbouring characters
(if any) are not word characters. -/
def specStandaloneIn (k : List Char) (s : List Char) : Bool :=
  specStandAux k none s

/-- Counterexample to C7: "history" contains no canned key as a standalone
word or phrase — in particular "hi" occurs only inside the longer word — yet
the classifier marks it Common, because the source test
`key == msg_lower or key in msg_lower` is a plain substring test. -/
theorem C7_counterexample :
    (commonKeys.all fun k => !(specStandaloneIn k.toList (pyNormChars "history"))) = true ∧
    containsSubB "hi".toList (pyNormChars "history") = true ∧
    classify_message "history" = "common" ∧
    classify_message "broken" = "common" := by
  refine ⟨by decide, by decide, by decide, by decide⟩

/-- C7 amended: classification as Common only requires some canned key to
equal the normalised message or occur anywhere inside it as a plain
substring, including inside a longer word; "history" (via "hi") and
"broken" (via "ok") both classify as Common. -/
theorem C7_substring_matching (m : String)
    (h : classify_message m = "common") :
    ∃ k ∈ commonKeys, k = pyNormStr m ∨ containsSubB k.toList (pyNormChars m) = true := by
  rw [classify_message] at h
  split_ifs at h with h1 h2 h3 h4
  · exact absurd h (by decide)
  · exact absurd h (by decide)
  · exact absurd h (by decide)
  · obtain ⟨k, hk, hcond⟩ := List.any_eq_true.mp h4
    refine ⟨k, hk, ?_⟩
    rcases Bool.or_eq_true _ _ |>.mp hcond with hc | hc
    · exact Or.inl (of_decide_eq_true hc)
    · exact Or.inr hc
  · exact absurd h (by decide)
  · exact absurd h (by decide)

/-- Ground witness for the amended C7: instantiated at "broken", whose only
canned match is the substring "ok" inside the word. -/
theorem C7_witness :
    classify_message "broken" = "common" ∧
    (commonKeys.any fun k =>
      k = pyNormStr "broken" || containsSubB k.toList (pyNormChars "broken")) = true := by
  refine ⟨by decide, ?_⟩
  obtain ⟨k, hk, hcond⟩ := C7_substring_matching "broken" (by decide)
  refine List.any_eq_true.mpr ⟨k, hk, ?_⟩
  rcases hcond with hc | hc
  · exact (Bool.or_eq_true _ _).mpr (Or.inl (decide_eq_true hc))
  · exact (Bool.or_eq_true _ _).mpr (Or.inr hc)

/-! ### C9: input validation -/

/-- get_response only reads its raw message through pyStripStr, so two
messages with the same trim behave identically. -/
theorem get_response_strip_congr (o : Oracles) (a b user_ip user_id : String)
    (now : Nat) (s : ServerState) (h : pyStripStr a = pyStripStr b) :
    get_response o a user_ip user_id now s = get_response o b user_ip user_id now s := by
  simp only [get_response, h]

theorem dropWhile_replicate_space (l : List Char) :
    ∀ n, List.dropWhile isSpaceChar (List.replicate n ' ' ++ l) =
      List.dropWhile isSpaceChar l := by
  intro n
  induction n with
  | zero => simp
  | succ n ih =>
    rw [List.replicate_succ, List.cons_append, List.dropWhile_cons]
    simp only [show isSpaceChar ' ' = true from rfl, if_true]
    exact ih

theorem pyStrip_hi_pad (n : Nat) :
    pyStrip ('h' :: 'i' :: List.replicate n ' ') = ['h', 'i'] := by
  unfold pyStrip
  rw [List.dropWhile_cons]
  simp only [show isSpaceChar 'h' = false from rfl, Bool.false_eq_true, if_false]
  rw [List.reverse_cons, List.reverse_cons, List.reverse_replicate, List.append_assoc]
  rw [dropWhile_replicate_space _ n]
  rfl

/-- A 5002-character message that is two letters followed by 5000 spaces. -/
def c9msg : String := String.mk ('h' :: 'i' :: List.replicate 5000 ' ')

theorem c9msg_strip : pyStripStr c9msg = pyStripStr "hi" := by
  show String.mk (pyStrip ('h' :: 'i' :: List.replicate 5000 ' ')) = _
  rw [pyStrip_hi_pad]
  rfl

theorem c9msg_length : c9msg.length = 5002 := by
  show ('h' :: 'i' :: List.replicate 5000 ' ').length = 5002
  rw [List.length_cons, List.length_cons, List.length_replicate]

/-- C9 amended: whenever the trimmed message is blank, or the trimmed
message is longer than 5000 characters, get_response returns the
corresponding fixed rejection text and leaves the whole server state —
rate-limiter timestamps, response cache, and every memory ring — untouched.
(The source checks the length after strip(), which is why the bound is on
the trimmed length; see the counterexample.) -/
theorem C9_validation_frame (o : Oracles) (msg user_ip user_id : String) (now : Nat)
    (s : ServerState)
    (h : pyStripStr msg = "" ∨ 5000 < (pyStripStr msg).length) :
    get_response o msg user_ip user_id now s =
      ((if pyStripStr msg = "" then emptyMsgResp else tooLongResp), s) := by
  simp only [get_response]
  rcases h with h | h
  · rw [if_pos h, if_pos h]
  · by_cases he : pyStripStr msg = ""
    · rw [if_pos he, if_pos he]
    · rw [if_neg he, if_neg he, if_pos h]

/-- The 5001-letter message used by the C9 witness. -/
def c9long : String := String.mk (List.replicate 5001 'b')

theorem c9long_strip : pyStripStr c9long = c9long := by
  show String.mk (pyStrip (List.replicate 5001 'b')) = _
  rw [pyStrip_no_space _ (fun c hc => by rw [List.eq_of_mem_replicate hc]; rfl)]
  rfl

theorem c9long_length : c9long.length = 5001 := by
  show (List.replicate 5001 'b').length = 5001
  rw [List.length_replicate]

theorem c9long_ne_empty : c9long ≠ "" := by
  intro h
  have := congrArg String.length h
  rw [c9long_length] at this
  exact absurd this (by decide)

/-- Ground witness for the amended C9: a blank message and a 5001-character
message are both rejected with the whole state unchanged. -/
theorem C9_witness :
    pyStripStr "   " = "" ∧
    get_response testOracles "   " "ip" "u" 0 emptyState = (emptyMsgResp, emptyState) ∧
    5000 < (pyStripStr c9long).length ∧
    get_response testOracles c9long "ip" "u" 0 emptyState = (tooLongResp, emptyState) := by
  have hlen : 5000 < (pyStripStr c9long).length := by
    rw [c9long_strip, c9long_length]
    decide
  refine ⟨by decide, ?_, hlen, ?_⟩
  · have h := C9_validation_frame testOracles "   " "ip" "u" 0 emptyState (Or.inl (by decide))
    rw [if_pos (show pyStripStr "   " = "" by decide)] at h
    exact h
  · have h := C9_validation_frame testOracles c9long "ip" "u" 0 emptyState (Or.inr hlen)
    have hne : pyStripStr c9long ≠ "" := by
      rw [c9long_strip]
      exact c9long_ne_empty
    rw [if_neg hne] at h
    exact h

/-- Counterexample to C9 as stated: c9msg is longer than 5000 characters,
yet it is not rejected — the source strips before measuring, the remaining
"hi" is served from the canned table, and both the cache and the memory ring
are mutated by the request. -/
theorem C9_counterexample :
    5000 < c9msg.length ∧
    (get_response testOracles c9msg "ip" "u" 0 emptyState).1 = "Oh hey there... 👀" ∧
    (get_response testOracles c9msg "ip" "u" 0 emptyState).1 ≠ emptyMsgResp ∧
    (get_response testOracles c9msg "ip" "u" 0 emptyState).1 ≠ tooLongResp ∧
    (get_response testOracles c9msg "ip" "u" 0 emptyState).2.user_memory "u" ≠ [] := by
  have hcong := get_response_strip_congr testOracles c9msg "hi" "ip" "u" 0 emptyState c9msg_strip
  rw [c9msg_length, hcong]
  refine ⟨by decide, by decide, by decide, by decide, by decide⟩

/-! ### C2: where the rate limiter sits in the request flow -/

/-- A server state in which the client ip has exhausted its quota: thirty
fresh timestamps at time 100. -/
def c2state : ServerState :=
  { user_requests := upd (fun _ => []) "ip" (List.replicate 30 100),
    user_memory := fun _ => [], response_cache := [] }

/-- Counterexample to C2 as stated: with the quota for ip exhausted (the
admission check would reject, first conjunct), the message "hi" is still
answered from the canned table — the classifier and the canned path run
before the rate limiter — and the request mutates both the memory ring and
the response cache. -/
theorem C2_counterexample :
    (is_rate_limited 100 (c2state.user_requests "ip")).1 = true ∧
    (get_response testOracles "hi" "ip" "u" 100 c2state).1 = "Oh hey there... 👀" ∧
    (get_response testOracles "hi" "ip" "u" 100 c2state).1 ≠ rateLimitResp ∧
    (get_response testOracles "hi" "ip" "u" 100 c2state).2.user_memory "u" =
      [⟨"hi", "Oh hey there... 👀", 100⟩] ∧
    (get_response testOracles "hi" "ip" "u" 100 c2state).2.response_cache ≠ [] := by
  refine ⟨by decide, by decide, by decide, by decide, by decide⟩

/-- C2 amended: the rate limiter is consulted only on the completion path —
after input validation, the cache lookup, classification, and the definition
and canned paths have all declined to answer.  When it then rejects, the
handler returns the throttling message and mutates neither the response
cache nor any memory ring; only the limiter's own timestamp list for that
client is replaced by its pruned form. -/
theorem C2_rate_check_after_routing (o : Oracles) (msg user_ip user_id : String)
    (now : Nat) (s : ServerState)
    (h1 : pyStripStr msg ≠ "")
    (h2 : (pyStripStr msg).length ≤ 5000)
    (h3 : pyTruthy (get_cached_response (pyStripStr msg) user_id now s.response_cache) = none)
    (h4 : classify_message (pyStripStr msg) = "definition" →
      defLoop o (candWords (pyStripStr msg)) = none)
    (h5 : classify_message (pyStripStr msg) = "common" →
      get_common_response o (pyStripStr msg) = none)
    (h6 : RATE_LIMIT_MAX ≤ (rl_prune now (s.user_requests user_ip)).length) :
    (get_response o msg user_ip user_id now s).1 = rateLimitResp ∧
    (get_response o msg user_ip user_id now s).2.response_cache = s.response_cache ∧
    (get_response o msg user_ip user_id now s).2.user_memory = s.user_memory ∧
    (get_response o msg user_ip user_id now s).2.user_requests =
      upd s.user_requests user_ip (rl_prune now (s.user_requests user_ip)) := by
  have hdef : (if classify_message (pyStripStr msg) = "definition"
      then defLoop o (candWords (pyStripStr msg)) else none) = none := by
    split
    · exact h4 (by assumption)
    · rfl
  have hcom : (if classify_message (pyStripStr msg) = "common"
      then get_common_response o (pyStripStr msg) else none) = none := by
    split
    · exact h5 (by assumption)
    · rfl
  have hrl : is_rate_limited now (s.user_requests user_ip) =
      (true, rl_prune now (s.user_requests user_ip)) := by
    rw [is_rate_limited]
    simp only [if_pos h6]
  simp only [get_response, if_neg h1, if_neg (by omega : ¬ 5000 < (pyStripStr msg).length),
    h3, hdef, hcom, hrl, if_true]
  exact ⟨trivial, trivial, trivial, trivial⟩

/-- Ground witness for the amended C2: a plain message from a client with an
exhausted quota gets the throttling message while the cache and all memory
rings are untouched. -/
theorem C2_witness :
    pyStripStr "xyz" ≠ "" ∧
    pyTruthy (get_cached_response (pyStripStr "xyz") "u" 100 c2state.response_cache)
      = none ∧
    RATE_LIMIT_MAX ≤ (rl_prune 100 (c2state.user_requests "ip")).length ∧
    (get_response testOracles "xyz" "ip" "u" 100 c2state).1 = rateLimitResp ∧
    (get_response testOracles "xyz" "ip" "u" 100 c2state).2.response_cache =
      c2state.response_cache ∧
    (get_response testOracles "xyz" "ip" "u" 100 c2state).2.user_memory =
      c2state.user_memory := by
  have h := C2_rate_check_after_routing testOracles "xyz" "ip" "u" 100 c2state
    (by decide) (by decide) (by decide)
    (fun hc => absurd hc (by decide)) (fun hc => absurd hc (by decide)) (by decide)
  exact ⟨by decide, by decide, by decide, h.1, h.2.1, h.2.2.1⟩

/-! ### C8: the memory update discipline of the orchestrator -/

/-- C8 amended: for every request that passes validation, misses the cache,
and is not rejected by the rate limiter, exactly one exchange — the stripped
message paired with the returned response — is appended to the requesting
user's ring before the response is returned, whichever path answered
(definition, canned, completion, or fallback); every other user's ring is
untouched.  (Cache hits are excluded: the source returns a cached response
without touching memory; see the counterexample.) -/
theorem C8_memory_update (o : Oracles) (msg user_ip user_id : String) (now : Nat)
    (s : ServerState)
    (h1 : pyStripStr msg ≠ "")
    (h2 : (pyStripStr msg).length ≤ 5000)
    (h3 : pyTruthy (get_cached_response (pyStripStr msg) user_id now s.response_cache) = none)
    (h6 : (rl_prune now (s.user_requests user_ip)).length < RATE_LIMIT_MAX) :
    (get_response o msg user_ip user_id now s).2.user_memory user_id =
      update_user_memory (s.user_memory user_id) (pyStripStr msg)
        (get_response o msg user_ip user_id now s).1 now ∧
    (∀ u : String, u ≠ user_id →
      (get_response o msg user_ip user_id now s).2.user_memory u = s.user_memory u) := by
  have hrl : is_rate_limited now (s.user_requests user_ip) =
      (false, rl_prune now (s.user_requests user_ip) ++ [now]) := by
    rw [is_rate_limited]
    simp only [if_neg (by omega :
      ¬ RATE_LIMIT_MAX ≤ (rl_prune now (s.user_requests user_ip)).length)]
  simp only [get_response, if_neg h1, if_neg (by omega : ¬ 5000 < (pyStripStr msg).length),
    h3, hrl]
  split
  · constructor
    · simp [applyHit, upd]
    · intro u hu
      simp [applyHit, upd, hu]
  · split
    · constructor
      · simp [applyHit, upd]
      · intro u hu
        simp [applyHit, upd, hu]
    · by_cases ha : o.aiText = ""
      · simp only [ha, ne_eq, not_true_eq_false, if_false, ite_not]
        constructor
        · simp [upd]
        · intro u hu
          simp [upd, hu]
      · simp only [ne_eq, ha, not_false_eq_true, if_true]
        constructor
        · simp [applyHit, upd]
        · intro u hu
          simp [applyHit, upd, hu]

/-- Ground witness for the amended C8: a normal message answered by the
completion oracle appends exactly one exchange to the requesting user's
ring, and another user's ring is untouched. -/
theorem C8_witness :
    pyStripStr "xyz" ≠ "" ∧
    pyTruthy (get_cached_response (pyStripStr "xyz") "u" 7 emptyState.response_cache)
      = none ∧
    (rl_prune 7 (emptyState.user_requests "ip")).length < RATE_LIMIT_MAX ∧
    (get_response testOracles "xyz" "ip" "u" 7 emptyState).2.user_memory "u" =
      update_user_memory (emptyState.user_memory "u") (pyStripStr "xyz")
        (get_response testOracles "xyz" "ip" "u" 7 emptyState).1 7 ∧
    (get_response testOracles "xyz" "ip" "u" 7 emptyState).2.user_memory "w" =
      emptyState.user_memory "w" := by
  have h := C8_memory_update testOracles "xyz" "ip" "u" 7 emptyState
    (by decide) (by decide) (by decide) (by decide)
  exact ⟨by decide, by decide, by decide, h.1, h.2 "w" (by decide)⟩

/-- A server state holding a fresh cached response for (user u, message hi). -/
def c8state : ServerState :=
  { user_requests := fun _ => [], user_memory := fun _ => [],
    response_cache := [(mkKey "u" "hi", (100, "yo"))] }

/-- Counterexample to C8 as stated: a request answered from the response
cache returns the cached text and appends nothing — the memory ring stays
empty, not the one-exchange ring the claim demands for cache-served
requests. -/
theorem C8_counterexample :
    (get_response testOracles "hi" "ip" "u" 100 c8state).1 = "yo" ∧
    (get_response testOracles "hi" "ip" "u" 100 c8state).2.user_memory "u" = [] ∧
    (get_response testOracles "hi" "ip" "u" 100 c8state).2.user_memory "u" ≠
      update_user_memory (c8state.user_memory "u") "hi" "yo" 100 := by
  refine ⟨by decide, by decide, by decide⟩
